import Mathlib

/-!
Verification development for the `retell-sync-bridge` service
(`src/retell-sync-bridge.mjs`).

JavaScript strings are modelled as `List Char` (with `String` wrappers kept
where the statements read better); machine timestamps are `Nat` milliseconds.
Functions are shallow embeddings of the corresponding source functions and
keep their names.  Loops that are not structurally recursive are given an
explicit fuel argument equal to the length of the data they consume, which is
always sufficient (each iteration of the source loop consumes at least one
character); the fuel-exhaustion branch is unreachable on the inputs the
claims quantify over and is noted at each definition.
-/

/-- ASCII approximation of the JavaScript `\s` / `trim` whitespace class.
The bridge only ever cuts at `' '` and `'\n'`, and all text the service
manipulates is produced by its own template literals, so the ASCII subset is
faithful for this development. -/
def isWsChar (c : Char) : Bool :=
  c = ' ' || c = '\t' || c = '\n' || c = '\r' || c = '\x0b' || c = '\x0c'

/-- `String.prototype.trimStart` on char lists. -/
def trimStartL (l : List Char) : List Char := l.dropWhile isWsChar

/-- `String.prototype.trimEnd` on char lists. -/
def trimEndL (l : List Char) : List Char := (l.reverse.dropWhile isWsChar).reverse

/-- `String.prototype.trim` on char lists. -/
def trimL (l : List Char) : List Char := trimStartL (trimEndL l)

/-- `String.prototype.trim` on strings. -/
def trimS (s : String) : String := String.mk (trimL s.data)

/-- JavaScript `a || b` on strings (`""` is falsy). -/
def jsOrStr (a b : String) : String := if a = "" then b else a

/-- JavaScript `a || b` where both operands are possibly-absent strings
(`undefined`/`null` modelled as `none`, and `""` is falsy as well). -/
def jsOrOptStr (a b : Option String) : Option String :=
  if a.getD "" = "" then b else a

/-- JavaScript `Number(x || d)` for a possibly-absent numeric `x`
(`0` is falsy, so it falls back to the default, as does an absent value). -/
def jsOrNum (a : Option Nat) (d : Nat) : Nat :=
  match a with
  | some n => if n = 0 then d else n
  | none => d

/-- `clampText` (src/retell-sync-bridge.mjs:137-141):
`s.length <= maxChars ? s : s.slice(0, Math.max(0, maxChars - 1)) + 'â€¦'`.
The appended suffix is the literal three-character sequence present in the
source file (a mis-encoded ellipsis). -/
def clampText (s : String) (maxChars : Nat) : String :=
  if s.length ≤ maxChars then s
  else String.mk (s.data.take (maxChars - 1)) ++ "â€¦"

/-- Is the character one of `\r`, `\n`, `\t` (the class of the first regex in
`oneLine`). -/
def isRNT (c : Char) : Bool := c = '\r' || c = '\n' || c = '\t'

/-- `s.replace(/[\r\n\t]+/g, ' ')`: every maximal run of `\r\n\t` characters
becomes a single space. -/
def collapseRNT : List Char → List Char
  | [] => []
  | [c] => if isRNT c then [' '] else [c]
  | c1 :: c2 :: rest =>
    if isRNT c1 then
      if isRNT c2 then collapseRNT (c2 :: rest)
      else ' ' :: collapseRNT (c2 :: rest)
    else c1 :: collapseRNT (c2 :: rest)

/-- One step of `s.replace(/\s{2,}/g, ' ')`: a run of two or more whitespace
characters becomes a single `' '`; a lone whitespace character is kept as is.
Fuel-structured (`fuel ≥ l.length` always suffices: every step consumes at
least one character). -/
def collapseWsGo (fuel : Nat) (l : List Char) : List Char :=
  match fuel, l with
  | _, [] => []
  | 0, l => l
  | f + 1, c :: cs =>
    if isWsChar c then
      match cs with
      | [] => [c]
      | c2 :: _ =>
        if isWsChar c2 then ' ' :: collapseWsGo f (cs.dropWhile isWsChar)
        else c :: collapseWsGo f cs
    else c :: collapseWsGo f cs

/-- `s.replace(/\s{2,}/g, ' ')`. -/
def collapseWs (l : List Char) : List Char := collapseWsGo l.length l

/-- `oneLine` (src/retell-sync-bridge.mjs:143-148):
`String(s ?? '').replace(/[\r\n\t]+/g,' ').replace(/\s{2,}/g,' ').trim()`. -/
def oneLine (s : String) : String :=
  String.mk (trimL (collapseWs (collapseRNT s.data)))

/-- Case-insensitive anchored match of `pat` (given lowercase) against the
head of `l`; returns the remainder on success. -/
def stripHeadCI (pat : List Char) (l : List Char) : Option (List Char) :=
  match pat, l with
  | [], rest => some rest
  | _ :: _, [] => none
  | p :: ps, c :: cs => if c.toLower = p then stripHeadCI ps cs else none

/-- The `s.replace(/^update system instructions\s*:\s*/i, '')` step of
`summarizeInstruction`: the pattern requires the literal phrase, optional
whitespace, a colon, optional whitespace; if any part is missing the string
is unchanged. -/
def stripUpdateInstr (l : List Char) : List Char :=
  match stripHeadCI "update system instructions".data l with
  | none => l
  | some rest =>
    match rest.dropWhile isWsChar with
    | ':' :: r2 => r2.dropWhile isWsChar
    | _ => l

/-- `summarizeInstruction` (src/retell-sync-bridge.mjs:150-154). -/
def summarizeInstruction (message : String) : String :=
  let s := oneLine message
  let stripped := trimS (String.mk (stripUpdateInstr s.data))
  clampText (jsOrStr stripped s) 160

/-- `shortRun` (src/retell-sync-bridge.mjs:156-159):
`const s = String(runId ?? '').trim(); return s.length > 10 ? s.slice(0, 8) : s;` -/
def shortRun (runId : String) : String :=
  let s := trimS runId
  if s.length > 10 then String.mk (s.data.take 8) else s

/-- Does `pat` occur as a contiguous sublist of `l`
(JavaScript `String.prototype.includes`)? -/
def containsSub (l pat : List Char) : Bool :=
  l.tails.any (fun t => pat.isPrefixOf t)

/-- `isStatusQuery` (src/retell-sync-bridge.mjs:112-123). -/
def isStatusQuery (message : String) : Bool :=
  let s := (oneLine message).data.map Char.toLower
  s = "check status".data ||
  "check status ".data.isPrefixOf s ||
  s = "status".data ||
  "status ".data.isPrefixOf s ||
  "job status".data.isPrefixOf s ||
  containsSub s "status update".data ||
  containsSub s "are you done".data

/-- The server-side wait budget for the dispatch path
(src/retell-sync-bridge.mjs:611):
`Math.min(25_000, Math.max(1_000, Number(args.timeoutMs || 12_000)))`.
This is the value passed to the `agent.wait` race before the 250ms grace pad. -/
def effectiveTimeoutMs (requested : Option Nat) : Nat :=
  min 25000 (max 1000 (jsOrNum requested 12000))

/-- Greatest `i < n` with `p i`, or `none`
(the search of JavaScript `lastIndexOf`). -/
def lastIdxBelow (p : Nat → Bool) : Nat → Option Nat
  | 0 => none
  | n + 1 => if p n then some n else lastIdxBelow p n

/-- `window.lastIndexOf(c)` for a single character. -/
def lastIndexOfChar (l : List Char) (c : Char) : Option Nat :=
  lastIdxBelow (fun i => decide (l[i]? = some c)) l.length

/-- `window.lastIndexOf('\n\n')`: start index of the last occurrence of two
consecutive newlines. -/
def lastPairNl (l : List Char) : Option Nat :=
  lastIdxBelow (fun i => decide (l[i]? = some '\n' ∧ l[i + 1]? = some '\n')) l.length

/-- One boundary test of `chunkText`: the candidate index must lie past the
fraction `num/den` of the window (`idx > maxChars * (num/den)`); on success
the cut point is `idx + adv`.  The source compares against the doubles
`0.5`, `0.6`, `0.8`; the exact rational comparison is the intended reading,
and the chunk properties proved below hold for any cut inside the window. -/
def cutIfPast (idx : Option Nat) (num den maxChars adv : Nat) : Option Nat :=
  match idx with
  | some i => if den * i > num * maxChars then some (i + adv) else none
  | none => none

/-- The cut-point selection of `chunkText`
(src/retell-sync-bridge.mjs:220-228): paragraph boundary past 50% of the
window, else line boundary past 60%, else space past 80%, else a hard cut at
exactly `maxChars`. -/
def chooseCut (maxChars : Nat) (paragraphIdx lineIdx spaceIdx : Option Nat) : Nat :=
  match cutIfPast paragraphIdx 1 2 maxChars 2 with
  | some c => c
  | none =>
    match cutIfPast lineIdx 3 5 maxChars 1 with
    | some c => c
    | none =>
      match cutIfPast spaceIdx 4 5 maxChars 1 with
      | some c => c
      | none => maxChars

/-- The `while (remaining.length > maxChars)` loop of `chunkText`
(src/retell-sync-bridge.mjs:216-236), fuel-structured.  `fuel ≥
remaining.length` always suffices when `maxChars ≥ 1`, since every iteration
removes at least `cut ≥ 1` characters; with `maxChars = 0` the source loop
itself does not terminate, which the fuel-exhaustion branch cuts off. -/
def chunkLoopF (maxChars fuel : Nat) (remaining : List Char) : List (List Char) :=
  if remaining.length ≤ maxChars then
    if remaining.isEmpty then [] else [remaining]
  else
    match fuel with
    | 0 => []
    | f + 1 =>
      let window := remaining.take (maxChars + 1)
      let cut := chooseCut maxChars (lastPairNl window)
        (lastIndexOfChar window '\n') (lastIndexOfChar window ' ')
      let part := trimEndL (remaining.take cut)
      let rest := trimStartL (remaining.drop cut)
      if part.isEmpty then chunkLoopF maxChars f rest
      else part :: chunkLoopF maxChars f rest

/-- `chunkText` (src/retell-sync-bridge.mjs:207-237). -/
def chunkText (text : String) (maxChars : Nat) : List String :=
  let s := trimL text.data
  (chunkLoopF maxChars s.length s).map String.mk

/-- A run record of the persisted state store (spec §3, built at
src/retell-sync-bridge.mjs:76-83 and 97).  Optional fields model JavaScript
object keys that may be absent (the minimal records inserted by
`recordRunUpdate` omit them). -/
structure RunRecord where
  runId : String
  summary : Option String
  message : Option String
  startedAtMs : Option Nat
  updatedAtMs : Nat
  completedAtMs : Option Nat
  status : Option String
deriving DecidableEq

/-- An update patch for `recordRunUpdate`.  Every call site of the bridge
patches only `status` and/or `completedAtMs`
(src/retell-sync-bridge.mjs:550-553, 623, 646, 663, 668), so the patch type
carries exactly those keys; `none` models an absent key. -/
structure RunPatch where
  status : Option String
  completedAtMs : Option Nat
deriving DecidableEq

/-- `recordRunStart` (src/retell-sync-bridge.mjs:73-86), with the state file
read/write made explicit as the `runs` list in and out.  `startedAtMs || now`
treats `0` as absent. -/
def recordRunStart (runs : List RunRecord) (runId summary message : String)
    (startedAtMs now : Nat) : List RunRecord :=
  let item : RunRecord :=
    { runId := runId
      summary := some summary
      message := some (clampText (oneLine message) 500)
      startedAtMs := some (if startedAtMs = 0 then now else startedAtMs)
      updatedAtMs := now
      completedAtMs := none
      status := some "running" }
  (item :: runs.filter (fun r => r.runId ≠ "" && r.runId ≠ runId)).take 50

/-- `{ ...r, ...patch, updatedAtMs: Date.now() }`: keys present in the patch
override the record, and `updatedAtMs` is refreshed. -/
def mergePatch (r : RunRecord) (p : RunPatch) (now : Nat) : RunRecord :=
  { r with
    status := match p.status with | some s => some s | none => r.status
    completedAtMs := match p.completedAtMs with | some t => some t | none => r.completedAtMs
    updatedAtMs := now }

/-- `recordRunUpdate` (src/retell-sync-bridge.mjs:88-100).  The source maps
over the list (merging every record whose `runId` matches) and, when nothing
matched, prepends a minimal record built from the patch and truncates to 50. -/
def recordRunUpdate (runs : List RunRecord) (runId : String) (p : RunPatch)
    (now : Nat) : List RunRecord :=
  let mapped := runs.map (fun r => if r.runId = runId then mergePatch r p now else r)
  if runs.any (fun r => r.runId = runId) then mapped
  else
    ({ runId := runId
       summary := none
       message := none
       startedAtMs := none
       updatedAtMs := now
       completedAtMs := p.completedAtMs
       status := p.status } :: mapped).take 50

/-- One store operation: a `recordRunStart` or a `recordRunUpdate` call with
its arguments and the wall-clock time at which it runs. -/
inductive RunOp where
  | start (runId summary message : String) (startedAtMs now : Nat)
  | update (runId : String) (p : RunPatch) (now : Nat)

/-- Apply one store operation. -/
def applyRunOp (runs : List RunRecord) : RunOp → List RunRecord
  | .start runId summary message startedAtMs now =>
    recordRunStart runs runId summary message startedAtMs now
  | .update runId p now => recordRunUpdate runs runId p now

/-- Apply a sequence of store operations in order. -/
def applyRunOps (runs : List RunRecord) (ops : List RunOp) : List RunRecord :=
  ops.foldl applyRunOp runs

/-- Resolved notification target (spec §3).  `toAddr` models the `to`
property of the source (`to` is reserved in Lean). -/
structure NotifyTarget where
  channel : String
  toAddr : String
  accountId : Option String
deriving DecidableEq

/-- The module-level cache of `resolveNotifyTarget`
(src/retell-sync-bridge.mjs:129-130): `cachedNotifyTarget` is `null` both
initially and after a lookup that found no address (`none` here), and
`cachedNotifyTargetAtMs` is the time of the last store. -/
structure NotifyCacheState where
  target : Option NotifyTarget
  atMs : Nat
deriving DecidableEq

/-- Environment configuration read by `resolveNotifyTarget`. -/
structure NotifyConfig where
  enabled : Bool
  channel : String
  toOverride : String
  accountIdOverride : Option String
deriving DecidableEq

/-- Result of one `resolveNotifyTarget` call: the returned target, the cache
state afterwards, and whether a `sessions.list` request was issued to the
session/history collaborator. -/
structure ResolveOutcome where
  target : Option NotifyTarget
  cache : NotifyCacheState
  queried : Bool
deriving DecidableEq

/-- `resolveNotifyTarget` (src/retell-sync-bridge.mjs:161-205).  `listedTo`
and `listedAccountId` are the delivery address and account id that the
`sessions.list` response yields after the source's field-priority chains
(`session?.lastTo || session?.deliveryContext?.to || session?.origin?.to ||
''` and the analogous accountId chain); an empty `listedTo` means no address
was found.  Note the cache guard `cachedNotifyTarget && now -
cachedNotifyTargetAtMs < 60_000` only short-circuits when the cached target
is truthy. -/
def resolveNotifyTarget (cfg : NotifyConfig) (st : NotifyCacheState) (now : Nat)
    (listedTo : String) (listedAccountId : Option String) : ResolveOutcome :=
  if ¬cfg.enabled then { target := none, cache := st, queried := false }
  else if st.target.isSome ∧ now - st.atMs < 60000 then
    { target := st.target, cache := st, queried := false }
  else if trimS cfg.toOverride ≠ "" then
    let t : NotifyTarget :=
      { channel := cfg.channel
        toAddr := trimS cfg.toOverride
        accountId :=
          match cfg.accountIdOverride with
          | some a => if trimS a = "" then none else some (trimS a)
          | none => none }
    { target := some t, cache := { target := some t, atMs := now }, queried := false }
  else if listedTo = "" then
    { target := none, cache := { target := none, atMs := now }, queried := true }
  else
    let t : NotifyTarget :=
      { channel := cfg.channel
        toAddr := listedTo
        accountId :=
          match listedAccountId with
          | some a => if trimS a = "" then none else some (trimS a)
          | none => none }
    { target := some t, cache := { target := some t, atMs := now }, queried := true }

mutual

/-- A JavaScript value, restricted to the shapes `extractText`
(src/retell-sync-bridge.mjs:300-331) inspects.  `vobj t m c` is an object
whose `text`, `message` and `content` properties are `t`, `m`, `c`
(`ValOpt.onone` models an absent property); other properties cannot
influence the function.  `ValList`/`ValOpt` are the list and option of
values, spelled as a mutual inductive family so that all functions below
are plain structural recursions. -/
inductive Val where
  | vnull : Val
  | vbool : Bool → Val
  | vnum : Int → Val
  | vstr : String → Val
  | varr : ValList → Val
  | vobj : ValOpt → ValOpt → ValOpt → Val

/-- A JavaScript array of values. -/
inductive ValList where
  | nil : ValList
  | cons : Val → ValList → ValList

/-- A possibly-absent JavaScript value (an object property). -/
inductive ValOpt where
  | onone : ValOpt
  | osome : Val → ValOpt

end

/-- The `typeof value.x === 'string'` probe of a property: the string when
the property is one, else `none`. -/
def strFieldText : ValOpt → Option String
  | .osome (.vstr s) => some s
  | _ => none

mutual

/-- `extractText` (src/retell-sync-bridge.mjs:300-331).  The leading
`if (!value) return ''` guard is absorbed case by case: the falsy values
(`null`, `false`, `0`, `''`) all produce `''` in both readings. -/
def extractText : Val → String
  | .vnull => ""
  | .vbool _ => ""
  | .vnum _ => ""
  | .vstr s => s
  | .varr es => String.join ((extractParts es).filter (fun s => s ≠ ""))
  | .vobj t m c =>
    match strFieldText t with
    | some s => s
    | none =>
      match strFieldText m with
      | some s => s
      | none => contentText c

/-- The `value.map(...)` of `extractText`'s array branch; the subsequent
`.filter(Boolean).join('')` is applied at the call sites. -/
def extractParts : ValList → List String
  | .nil => []
  | .cons v vs => extractPart v :: extractParts vs

/-- The element mapper of `extractText`'s array branch
(src/retell-sync-bridge.mjs:309-318): it consults `text` and `content` but
not `message`, and an array element that is itself an array has neither
property, so it maps to `''`. -/
def extractPart : Val → String
  | .vnull => ""
  | .vbool _ => ""
  | .vnum _ => ""
  | .vstr s => s
  | .varr _ => ""
  | .vobj t _ c =>
    match strFieldText t with
    | some s => s
    | none => contentText c

/-- The `content`-property legs shared by both object branches:
`typeof content === 'string'` wins, else `Array.isArray(content)` recurses
as `extractText` on the array, else `''`. -/
def contentText : ValOpt → String
  | .osome (.vstr s) => s
  | .osome (.varr es) => String.join ((extractParts es).filter (fun s => s ≠ ""))
  | _ => ""

end

/-- Is the property a non-empty string? -/
def strFieldHas : ValOpt → Bool
  | .osome (.vstr s) => decide (s ≠ "")
  | _ => false

mutual

/-- Is there a non-empty string reachable from `v` along the field paths
`extractText` recognizes (the value itself; `text`/`message`/`content` of
an object, recursing through `content` arrays; `text`/`content` of an
array element)? -/
def hasText : Val → Bool
  | .vstr s => decide (s ≠ "")
  | .varr es => hasParts es
  | .vobj t m c => strFieldHas t || strFieldHas m || contentHas c
  | _ => false

/-- `hasText` over the elements of an array. -/
def hasParts : ValList → Bool
  | .nil => false
  | .cons v vs => hasPart v || hasParts vs

/-- `hasText` restricted to the paths the array-element mapper follows. -/
def hasPart : Val → Bool
  | .vstr s => decide (s ≠ "")
  | .vobj t _ c => strFieldHas t || contentHas c
  | _ => false

/-- `hasText` restricted to the paths the `content` legs follow. -/
def contentHas : ValOpt → Bool
  | .osome (.vstr s) => decide (s ≠ "")
  | .osome (.varr es) => hasParts es
  | _ => false

end

mutual

/-- Mutual size measure for induction over `Val`. -/
def vsize : Val → Nat
  | .vnull => 1
  | .vbool _ => 1
  | .vnum _ => 1
  | .vstr _ => 1
  | .varr es => lsize es + 1
  | .vobj t m c => osize t + osize m + osize c + 1

/-- Size of a `ValList`. -/
def lsize : ValList → Nat
  | .nil => 0
  | .cons v vs => vsize v + lsize vs + 1

/-- Size of a `ValOpt`. -/
def osize : ValOpt → Nat
  | .onone => 0
  | .osome v => vsize v + 1

end

/-- JavaScript `\w` (word character) for the `\b` boundary in
`extractRunIdFromText`. -/
def isWordChar (c : Char) : Bool := c.isAlphanum || c = '_'

/-- Case-insensitive hex digit (`[0-9a-f]` under the `/i` flag). -/
def isHexCI (c : Char) : Bool := c.isDigit || ('a' ≤ c.toLower && c.toLower ≤ 'f')

/-- Are the `n` characters starting at offset `off` all present and hex? -/
def hexSeg (l : List Char) (off n : Nat) : Bool :=
  decide (((l.drop off).take n).length = n) && ((l.drop off).take n).all isHexCI

/-- Does a full UUID (`8-4-4-4-12` hex with dashes) start at the head of
`l`? -/
def uuidAt (l : List Char) : Bool :=
  hexSeg l 0 8 && decide (l[8]? = some '-') &&
  hexSeg l 9 4 && decide (l[13]? = some '-') &&
  hexSeg l 14 4 && decide (l[18]? = some '-') &&
  hexSeg l 19 4 && decide (l[23]? = some '-') &&
  hexSeg l 24 12

/-- Leftmost UUID occurrence (the 36 matched characters). -/
def scanUuid : List Char → Option (List Char)
  | [] => none
  | c :: cs => if uuidAt (c :: cs) then some ((c :: cs).take 36) else scanUuid cs

/-- Match of `/#([0-9a-f]{8})\b/i` anchored at the head of `l`, returning
the captured 8 hex characters. -/
def shortMatchAt : List Char → Option (List Char)
  | '#' :: rest =>
    let h := rest.take 8
    if decide (h.length = 8) && h.all isHexCI &&
        (match rest.drop 8 with
         | [] => true
         | c :: _ => !isWordChar c) then
      some h
    else none
  | _ => none

/-- Leftmost `#hhhhhhhh` occurrence (the captured hex characters). -/
def scanShort : List Char → Option (List Char)
  | [] => none
  | c :: cs =>
    match shortMatchAt (c :: cs) with
    | some h => some h
    | none => scanShort cs

/-- `extractRunIdFromText` (src/retell-sync-bridge.mjs:102-110): a full
UUID wins, else the short `#`-prefixed 8-hex form, else `''`. -/
def extractRunIdFromText (s : String) : String :=
  match scanUuid s.data with
  | some u => String.mk u
  | none =>
    match scanShort s.data with
    | some h => String.mk h
    | none => ""

/-!
Notification message builders.  The `\u00..`/`\u01..`/`\u20..`/`\u21..`
escape sequences reproduce, character for character, the string literals of
the source file, whose emoji were mangled by a past encoding round-trip
(e.g. the "Done" prefix is the three characters U+00E2 U+0153 U+2026).
-/

/-- `` runId ? ` (#${shortRun(runId)})` : '' `` (src lines 544 and 592). -/
def mkRunTag (runId : String) : String :=
  if runId = "" then "" else " (#" ++ shortRun runId ++ ")"

/-- The "Working" notification text (src lines 599, 603, 641, 647). -/
def mkWorkingMsg (runTag summary : String) : String :=
  "â³ Working" ++ runTag ++ ": " ++ summary

/-- The "Done" notification text (src line 635). -/
def mkDoneMsg (runTag summary body : String) : String :=
  "âœ… Done" ++ runTag ++ ": " ++ summary ++ body

/-- The "In progress" notification text (src lines 648-650). -/
def mkInProgressMsg (runTag summary : String) : String :=
  "ðŸŸ¡ In progress" ++ runTag ++ ": " ++ summary ++
    " (Iâ€™ll ping you here when itâ€™s finished.)"

/-- The generic "Status (…)" notification text (src line 682). -/
def mkStatusErrMsg (st runTag summary : String) : String :=
  "âŒ Status (" ++ st ++ ")" ++ runTag ++ ": " ++ summary

/-- The timeout response text (src lines 687-688). -/
def stillWorkingText (runId : String) : String :=
  "Still working (run " ++ shortRun runId ++
    "). Iâ€™ll post progress in Telegram; ask me â€œcheck statusâ€ if you want the final result read out loud."

/-- The call-started notification text (src lines 418-420). -/
def mkCallStartedMsg (activeCallId : String) : String :=
  "ðŸ“ž Call started" ++
    (if activeCallId = "" then "" else " (" ++ activeCallId ++ ")") ++
    ". Iâ€™ll post task status updates in this chat."

/-- The call-ended notification head (src line 471). -/
def mkCallEndedHead (callId : String) : String :=
  "ðŸ“ž Call ended" ++
    (if callId = "" then "" else " (" ++ callId ++ ")") ++ ". Transcript (truncated):"

/-- The process-wide call lifecycle flags
(src/retell-sync-bridge.mjs:132-135). -/
structure CallState where
  callOngoing : Bool
  activeCallId : String
  lastCallStartedAtMs : Nat
deriving DecidableEq

/-- The instruction fields of a `/retell/sync` body (or of its `args`
wrapper).  `none` models an absent or non-string field (the handler's
`typeof` check rejects non-strings). -/
structure Args where
  message : Option String
  instruction : Option String
  text : Option String
  deliver : Option Bool
  thinking : Option String
  timeoutMs : Option Nat
deriving DecidableEq

/-- A parsed `/retell/sync` body: `body.args ?? body`
(src/retell-sync-bridge.mjs:505). -/
structure SyncView where
  args : Option Args
  fields : Args
deriving DecidableEq

/-- A parsed `/retell/webhook` body, after the source's field-priority
chains (spec §1 declares webhook field-name normalization a non-goal):
`eventType`, `callId`, `agentId` are the values of the `||` chains at
src/retell-sync-bridge.mjs:379-400, and `transcript` is the extracted
transcript (`''` when none), before the `safeTranscript` fallback. -/
structure WebhookView where
  eventType : String
  callId : String
  agentId : String
  transcript : String
deriving DecidableEq

/-- A parsed JSON request body, carrying the views both routes read. -/
structure ReqBody where
  sync : SyncView
  webhook : WebhookView
deriving DecidableEq

/-- An inbound HTTP request.  `body = none` models an unparseable JSON
body. -/
structure Request where
  method : String
  path : String
  headerToken : Option String
  queryToken : Option String
  body : Option ReqBody
deriving DecidableEq

/-- The payload of the `agent` start request issued to the backend
(src/retell-sync-bridge.mjs:583-589). -/
structure AgentStartReq where
  message : String
  thinking : String
  deliver : Bool
  idempotencyKey : String
deriving DecidableEq

/-- The handler's environment: configuration, the persisted store as read,
the clock, and oracles for the collaborator responses.
`agentAckRunId` is `agentAck?.runId`; `waitStatus` is the `status` of
whichever side of the `agent.wait`-vs-timer race resolved first
(`some "timeout"` for the synthetic timer, `none` for a resolution without
a status); `elapsedAtWaitMs` is the elapsed time when that race resolved
(when the working timer is cleared, src line 618) and `elapsedMs` the
elapsed time at the notification decision (src line 632), so
`elapsedAtWaitMs ≤ elapsedMs` on any monotone clock; `lastText` is the
result of `getLastAssistantText`; `polledStatus` is the `status` of the
status-query poll (`none` when the poll threw). -/
structure Env where
  secret : String
  retellAgentId : Option String
  statusNotifyMaxChars : Nat
  call : CallState
  runs : List RunRecord
  now : Nat
  agentAckRunId : Option String
  idempotencyKey : String
  waitStatus : Option String
  elapsedAtWaitMs : Nat
  elapsedMs : Nat
  lastText : String
  polledStatus : Option String

/-- Observable side effects of handling one request.  `notifications` lists
the texts passed to `sendStatusNotification`, in order (delivery then
depends on the resolved target and chunking); `stateWrites` counts state
file writes; `runsAfter`/`callAfter` are the store and call flags after
the handler; the asynchronous follow-up loop (src lines 652-679) is
represented only by `followupStarted`, since it runs after the response. -/
structure Effects where
  agentStart : Option AgentStartReq
  dispatchWaitBudgetMs : Option Nat
  statusPollBudgetMs : Option Nat
  notifications : List String
  stateWrites : Nat
  memoryAppends : Nat
  followupStarted : Bool
  runsAfter : List RunRecord
  callAfter : CallState
deriving DecidableEq

/-- The JSON body (plus HTTP status) written by `send(res, status, obj)`;
absent object keys are `none`. -/
structure HttpResponse where
  httpStatus : Nat
  ok : Bool
  error : Option String := none
  runId : Option String := none
  status : Option String := none
  text : Option String := none
  message : Option String := none
deriving DecidableEq

/-- No side effects: store and call flags unchanged, nothing sent. -/
def noEffects (env : Env) : Effects :=
  { agentStart := none
    dispatchWaitBudgetMs := none
    statusPollBudgetMs := none
    notifications := []
    stateWrites := 0
    memoryAppends := 0
    followupStarted := false
    runsAfter := env.runs
    callAfter := env.call }

/-- The `no_jobs` response of the status-query branch
(src/retell-sync-bridge.mjs:525-532). -/
def noJobsResponse : HttpResponse :=
  { httpStatus := 200
    ok := true
    status := some "no_jobs"
    message := some "No active jobs to report."
    text := some "No active jobs to report." }

/-- The status-query branch of the `/retell/sync` handler
(src/retell-sync-bridge.mjs:512-564). -/
def statusBranch (env : Env) (msg : String) : HttpResponse × Effects :=
  let runs := env.runs
  let wantRun := extractRunIdFromText msg
  let item0 : Option RunRecord :=
    if wantRun ≠ "" then
      runs.find? (fun r => decide (r.runId = wantRun) || decide (shortRun r.runId = wantRun))
    else none
  let item1 : Option RunRecord :=
    match item0 with
    | some it => some it
    | none =>
      match runs.find? (fun r => decide (r.status = some "running")) with
      | some it => some it
      | none => runs.head?
  match item1 with
  | none => (noJobsResponse, noEffects env)
  | some item =>
    if item.runId = "" then (noJobsResponse, noEffects env)
    else
      let polled := env.polledStatus
      let isDone := polled = some "ok" ∨ item.status = some "done"
      let statusStr :=
        if isDone then "done"
        else jsOrStr (item.status.getD "") (jsOrStr (polled.getD "") "running")
      let runTag := mkRunTag item.runId
      let bodyText :=
        if isDone then (if env.lastText = "" then "" else "\n" ++ env.lastText) else ""
      let runs2 :=
        if isDone then recordRunUpdate runs item.runId ⟨some "done", some env.now⟩ env.now
        else runs
      let responseText :=
        trimS ("Status" ++ runTag ++ ": " ++ statusStr ++ ". " ++
          jsOrStr (item.summary.getD "") (summarizeInstruction (item.message.getD ""))) ++
        bodyText
      ({ httpStatus := 200
         ok := true
         runId := some item.runId
         status := some statusStr
         message := some responseText
         text := some responseText },
       { noEffects env with
          statusPollBudgetMs := some 1000
          stateWrites := if isDone then 1 else 0
          runsAfter := runs2 })

/-- The dispatch path of the `/retell/sync` handler
(src/retell-sync-bridge.mjs:566-698). -/
def dispatchBranch (env : Env) (args : Args) (msg : String) : HttpResponse × Effects :=
  let deliver := args.deliver.getD false
  let thinking := jsOrStr (args.thinking.getD "") "low"
  let startReq : AgentStartReq :=
    { message := msg, thinking := thinking, deliver := deliver,
      idempotencyKey := env.idempotencyKey }
  let summary := summarizeInstruction msg
  let runId := jsOrStr (env.agentAckRunId.getD "") env.idempotencyKey
  let runTag := mkRunTag runId
  let runs1 := recordRunStart env.runs runId summary msg env.now env.now
  let working := mkWorkingMsg runTag summary
  let workingPre :=
    if env.call.callOngoing then [working]
    else if 1200 ≤ env.elapsedAtWaitMs then [working] else []
  let workingNotified := env.call.callOngoing || decide (1200 ≤ env.elapsedAtWaitMs)
  let tmo := effectiveTimeoutMs args.timeoutMs
  if env.waitStatus = some "ok" then
    let assistantText := env.lastText
    let runs2 := recordRunUpdate runs1 runId ⟨some "done", some env.now⟩ env.now
    let body := if assistantText = "" then "" else "\n" ++ assistantText
    let finalMsg := mkDoneMsg runTag summary body
    let notifs := workingPre ++
      (if workingNotified = false ∧ env.elapsedMs < 1200 then [finalMsg]
       else (if workingNotified = false then [working] else []) ++ [finalMsg])
    let responseText := jsOrStr assistantText "Done."
    ({ httpStatus := 200, ok := true, runId := some runId, status := some "ok",
       text := some responseText, message := some responseText },
     { agentStart := some startReq, dispatchWaitBudgetMs := some tmo,
       statusPollBudgetMs := none, notifications := notifs, stateWrites := 2,
       memoryAppends := 1, followupStarted := false, runsAfter := runs2,
       callAfter := env.call })
  else if env.waitStatus = some "timeout" then
    let runs2 := recordRunUpdate runs1 runId ⟨some "running", none⟩ env.now
    let notifs := workingPre ++ (if workingNotified = false then [working] else []) ++
      [mkInProgressMsg runTag summary]
    let responseText := stillWorkingText runId
    ({ httpStatus := 200, ok := true, runId := some runId, status := some "timeout",
       text := some responseText, message := some responseText },
     { agentStart := some startReq, dispatchWaitBudgetMs := some tmo,
       statusPollBudgetMs := none, notifications := notifs, stateWrites := 2,
       memoryAppends := 1, followupStarted := true, runsAfter := runs2,
       callAfter := env.call })
  else
    let stStr := jsOrStr (env.waitStatus.getD "") "unknown"
    let notifs := workingPre ++ [mkStatusErrMsg stStr runTag summary]
    ({ httpStatus := 200, ok := true, runId := some runId, status := some stStr,
       text := some "Done.", message := some "Done." },
     { agentStart := some startReq, dispatchWaitBudgetMs := some tmo,
       statusPollBudgetMs := none, notifications := notifs, stateWrites := 1,
       memoryAppends := 1, followupStarted := false, runsAfter := runs1,
       callAfter := env.call })

/-- `args.message || args.instruction || args.text`, then the
`!message || typeof message !== 'string'` validity check
(src/retell-sync-bridge.mjs:505-509); `none` means the request is
rejected with `missing_message`. -/
def messageOf (v : SyncView) : Option String :=
  let args := v.args.getD v.fields
  let m := jsOrOptStr (jsOrOptStr args.message args.instruction) args.text
  if m.getD "" = "" then none else m

/-- The `/retell/sync` route (src/retell-sync-bridge.mjs:504-698). -/
def syncBranch (env : Env) (v : SyncView) : HttpResponse × Effects :=
  match messageOf v with
  | none => ({ httpStatus := 400, ok := false, error := some "missing_message" }, noEffects env)
  | some msg =>
    if isStatusQuery msg then statusBranch env msg
    else dispatchBranch env (v.args.getD v.fields) msg

/-- Effects of the `/retell/webhook` route once past the agent filter
(src/retell-sync-bridge.mjs:408-497).  Per-call artifact file writes
(lines 487-496) are not separately modelled. -/
def webhookEffects (env : Env) (w : WebhookView) : Effects :=
  let norm := String.mk (w.eventType.data.map Char.toLower)
  let isStarted := containsSub norm.data "call_started".data
  let isEnded := containsSub norm.data "call_ended".data
  let call1 :=
    if isStarted then
      { callOngoing := true, activeCallId := w.callId, lastCallStartedAtMs := env.now }
    else env.call
  let call2 :=
    if isEnded ∧ (call1.activeCallId = "" ∨ w.callId = call1.activeCallId) then
      { call1 with callOngoing := false, activeCallId := "" }
    else call1
  let safeTranscript := jsOrStr w.transcript "(no transcript on this event)"
  let notifs :=
    (if isStarted then [mkCallStartedMsg w.callId] else []) ++
    (if isEnded then
      [mkCallEndedHead w.callId ++ "\n" ++
        clampText safeTranscript (min env.statusNotifyMaxChars 3500)]
     else [])
  { agentStart := none
    dispatchWaitBudgetMs := none
    statusPollBudgetMs := none
    notifications := notifs
    stateWrites := 0
    memoryAppends := 1
    followupStarted := false
    runsAfter := env.runs
    callAfter := call2 }

/-- The `/retell/webhook` route (src/retell-sync-bridge.mjs:371-499): it
replies `200 {ok:true}` before any processing, then stops silently when an
agent-id filter is configured and does not match. -/
def webhookBranch (env : Env) (w : WebhookView) : HttpResponse × Effects :=
  let resp : HttpResponse := { httpStatus := 200, ok := true }
  match env.retellAgentId with
  | some rid => if w.agentId ≠ rid then (resp, noEffects env) else (resp, webhookEffects env w)
  | none => (resp, webhookEffects env w)

/-- `url.pathname.replace(/\/+$/, '') || '/'`
(src/retell-sync-bridge.mjs:362). -/
def normalizePath (p : String) : String :=
  let l := (p.data.reverse.dropWhile (fun c => c = '/')).reverse
  if l.isEmpty then "/" else String.mk l

/-- The top-level request handler (src/retell-sync-bridge.mjs:357-704):
method gate, then authentication, then body parse, then routing. -/
def handleRequest (env : Env) (req : Request) : HttpResponse × Effects :=
  if req.method ≠ "POST" then
    ({ httpStatus := 405, ok := false, error := some "method_not_allowed" }, noEffects env)
  else
    let pathname := normalizePath req.path
    let token := jsOrOptStr req.headerToken req.queryToken
    if token ≠ some env.secret then
      ({ httpStatus := 401, ok := false, error := some "unauthorized" }, noEffects env)
    else
      match req.body with
      | none => ({ httpStatus := 400, ok := false, error := some "invalid_json" }, noEffects env)
      | some body =>
        if pathname = "/retell/webhook" then webhookBranch env body.webhook
        else if pathname ≠ "/retell/sync" then
          ({ httpStatus := 404, ok := false, error := some "not_found" }, noEffects env)
        else syncBranch env body.sync

/-! ## Supporting lemmas -/

theorem lastIdxBelow_spec (p : Nat → Bool) :
    ∀ n i, lastIdxBelow p n = some i → i < n ∧ p i = true := by
  intro n
  induction n with
  | zero => intro i h; simp [lastIdxBelow] at h
  | succ n ih =>
    intro i h
    unfold lastIdxBelow at h
    by_cases hp : p n = true
    · rw [if_pos hp] at h
      cases h
      exact ⟨Nat.lt_succ_self n, hp⟩
    · rw [if_neg hp] at h
      obtain ⟨h1, h2⟩ := ih i h
      exact ⟨Nat.lt_succ_of_lt h1, h2⟩

theorem trimEndL_sublist (l : List Char) : List.Sublist (trimEndL l) l := by
  have h : List.Sublist (l.reverse.dropWhile isWsChar) l.reverse :=
    List.dropWhile_sublist isWsChar
  have h2 := List.reverse_sublist.mpr h
  simpa [trimEndL] using h2

theorem trimStartL_sublist (l : List Char) : List.Sublist (trimStartL l) l :=
  List.dropWhile_sublist isWsChar

theorem trimEndL_length_le (l : List Char) : (trimEndL l).length ≤ l.length :=
  (trimEndL_sublist l).length_le

/-- Dropping a trailing whitespace character does not change `trimEndL`. -/
theorem trimEndL_append_ws (l : List Char) (c : Char) (hc : isWsChar c = true) :
    trimEndL (l ++ [c]) = trimEndL l := by
  unfold trimEndL
  rw [List.reverse_append]
  simp [hc]

/-- `trimEndL` of a prefix ending in a whitespace character equals
`trimEndL` of the prefix one shorter. -/
theorem trimEndL_take_ws (rem : List Char) (k : Nat) (c : Char) (hk : rem[k]? = some c)
    (hc : isWsChar c = true) : trimEndL (rem.take (k + 1)) = trimEndL (rem.take k) := by
  rw [List.take_succ, hk]
  simpa using trimEndL_append_ws (rem.take k) c hc

theorem cutIfPast_spec (idx : Option Nat) (num den maxChars adv : Nat) :
    cutIfPast idx num den maxChars adv = none ∨
    (∃ i, cutIfPast idx num den maxChars adv = some (i + adv) ∧ idx = some i) := by
  cases idx with
  | none => exact Or.inl rfl
  | some i =>
    by_cases h : den * i > num * maxChars
    · exact Or.inr ⟨i, by simp [cutIfPast, h], rfl⟩
    · exact Or.inl (by simp [cutIfPast, h])

/-- Every cut point `chunkText` selects is either the hard cut at
`maxChars` or one position past a whitespace character of the window
(paragraph and line cuts end after a `'\n'`, word cuts after a `' '`). -/
theorem chooseCut_spec (maxChars : Nat) (w : List Char) :
    chooseCut maxChars (lastPairNl w) (lastIndexOfChar w '\n') (lastIndexOfChar w ' ') =
      maxChars ∨
    (∃ k c, chooseCut maxChars (lastPairNl w) (lastIndexOfChar w '\n')
        (lastIndexOfChar w ' ') = k + 1 ∧ w[k]? = some c ∧ isWsChar c = true) := by
  rcases cutIfPast_spec (lastPairNl w) 1 2 maxChars 2 with h1 | ⟨i, h1, hip⟩
  · rcases cutIfPast_spec (lastIndexOfChar w '\n') 3 5 maxChars 1 with h2 | ⟨j, h2, hjp⟩
    · rcases cutIfPast_spec (lastIndexOfChar w ' ') 4 5 maxChars 1 with h3 | ⟨k, h3, hkp⟩
      · left
        unfold chooseCut
        rw [h1, h2, h3]
      · right
        obtain ⟨hk, hpk⟩ := lastIdxBelow_spec _ _ _ hkp
        simp only [decide_eq_true_eq] at hpk
        exact ⟨k, ' ', by unfold chooseCut; rw [h1, h2, h3], hpk, rfl⟩
    · right
      obtain ⟨hj, hpj⟩ := lastIdxBelow_spec _ _ _ hjp
      simp only [decide_eq_true_eq] at hpj
      exact ⟨j, '\n', by unfold chooseCut; rw [h1, h2], hpj, rfl⟩
  · right
    obtain ⟨hi, hpi⟩ := lastIdxBelow_spec _ _ _ hip
    simp only [decide_eq_true_eq] at hpi
    exact ⟨i + 1, '\n', by unfold chooseCut; rw [h1], hpi.2, rfl⟩

/-- Each part cut from the front of `remaining` has, after its trailing
trim, at most `maxChars` characters. -/
theorem part_length_le (rem : List Char) (maxChars : Nat) :
    (trimEndL (rem.take (chooseCut maxChars (lastPairNl (rem.take (maxChars + 1)))
      (lastIndexOfChar (rem.take (maxChars + 1)) '\n')
      (lastIndexOfChar (rem.take (maxChars + 1)) ' ')))).length ≤ maxChars := by
  rcases chooseCut_spec maxChars (rem.take (maxChars + 1)) with hc | ⟨k, c, hc, hk, hwsc⟩
  · rw [hc]
    calc (trimEndL (rem.take maxChars)).length
        ≤ (rem.take maxChars).length := trimEndL_length_le _
      _ ≤ maxChars := by simp [List.length_take]
  · rw [hc]
    have hkb : k < maxChars + 1 := by
      obtain ⟨hb, _⟩ := List.getElem?_eq_some.mp hk
      have hlen2 : (rem.take (maxChars + 1)).length ≤ maxChars + 1 := by
        simp [List.length_take]
      omega
    have hrem : rem[k]? = some c := by
      rw [← List.getElem?_take_of_lt hkb]
      exact hk
    rw [trimEndL_take_ws rem k c hrem hwsc]
    calc (trimEndL (rem.take k)).length
        ≤ (rem.take k).length := trimEndL_length_le _
      _ ≤ k := by simp [List.length_take]
      _ ≤ maxChars := by omega

/-- Every chunk the loop emits has at most `maxChars` characters. -/
theorem chunkLoopF_length (maxChars : Nat) :
    ∀ fuel rem, ∀ ch ∈ chunkLoopF maxChars fuel rem, ch.length ≤ maxChars := by
  intro fuel
  induction fuel with
  | zero =>
    intro rem ch hch
    rw [chunkLoopF] at hch
    by_cases h : rem.length ≤ maxChars
    · rw [if_pos h] at hch
      by_cases he : rem.isEmpty
      · simp [he] at hch
      · simp [he] at hch
        subst hch
        exact h
    · rw [if_neg h] at hch
      simp at hch
  | succ f ih =>
    intro rem ch hch
    rw [chunkLoopF] at hch
    by_cases h : rem.length ≤ maxChars
    · rw [if_pos h] at hch
      by_cases he : rem.isEmpty
      · simp [he] at hch
      · simp [he] at hch
        subst hch
        exact h
    · rw [if_neg h] at hch
      simp only at hch
      by_cases hp : (trimEndL (rem.take (chooseCut maxChars
          (lastPairNl (rem.take (maxChars + 1)))
          (lastIndexOfChar (rem.take (maxChars + 1)) '\n')
          (lastIndexOfChar (rem.take (maxChars + 1)) ' ')))).isEmpty
      · rw [if_pos hp] at hch
        exact ih _ ch hch
      · rw [if_neg hp] at hch
        rcases List.mem_cons.mp hch with h1 | h1
        · subst h1
          exact part_length_le rem maxChars
        · exact ih _ ch h1

/-- The concatenation of the chunks is a subsequence of the input: each
step keeps a prefix of `remaining` minus its trimmed tail and a suffix of
`remaining` minus its trimmed head. -/
theorem chunkLoopF_flatten_sublist (maxChars : Nat) :
    ∀ fuel rem, List.Sublist (chunkLoopF maxChars fuel rem).flatten rem := by
  intro fuel
  induction fuel with
  | zero =>
    intro rem
    rw [chunkLoopF]
    by_cases h : rem.length ≤ maxChars
    · rw [if_pos h]
      by_cases he : rem.isEmpty
      · simp [he]
      · simp [he]
    · rw [if_neg h]
      simp
  | succ f ih =>
    intro rem
    rw [chunkLoopF]
    by_cases h : rem.length ≤ maxChars
    · rw [if_pos h]
      by_cases he : rem.isEmpty
      · simp [he]
      · simp [he]
    · rw [if_neg h]
      simp only
      by_cases hp : (trimEndL (rem.take (chooseCut maxChars
          (lastPairNl (rem.take (maxChars + 1)))
          (lastIndexOfChar (rem.take (maxChars + 1)) '\n')
          (lastIndexOfChar (rem.take (maxChars + 1)) ' ')))).isEmpty
      · rw [if_pos hp]
        refine List.Sublist.trans (ih _) ?_
        exact List.Sublist.trans (trimStartL_sublist _) (List.drop_sublist _ _)
      · rw [if_neg hp]
        rw [List.flatten_cons]
        refine List.Sublist.trans
          (List.Sublist.append (trimEndL_sublist _)
            (List.Sublist.trans (ih _) (trimStartL_sublist _))) ?_
        rw [List.take_append_drop]

/-- `String.join` over `String.mk` is list flattening on the underlying
character lists. -/
theorem join_map_mk (L : List (List Char)) :
    (String.join (L.map String.mk)).data = L.flatten := by
  suffices h : ∀ (M : List (List Char)) (a : String),
      (List.foldl (fun r s => r ++ s) a (M.map String.mk)).data = a.data ++ M.flatten by
    simpa [String.join] using h L ""
  intro M
  induction M with
  | nil => intro a; simp
  | cons l M ih =>
    intro a
    simp only [List.map_cons, List.foldl_cons, List.flatten_cons]
    rw [ih]
    simp [List.append_assoc]

theorem mergePatch_runId (r : RunRecord) (p : RunPatch) (now : Nat) :
    (mergePatch r p now).runId = r.runId := rfl

/-- `recordRunStart` preserves distinctness of `runId`s: the filter evicts
any record with the inserted id before the new record is prepended. -/
theorem recordRunStart_nodup (runs : List RunRecord) (rid su me : String) (sa now : Nat)
    (h : (runs.map RunRecord.runId).Nodup) :
    ((recordRunStart runs rid su me sa now).map RunRecord.runId).Nodup := by
  unfold recordRunStart
  refine List.Nodup.sublist (List.Sublist.map _ (List.take_sublist _ _)) ?_
  rw [List.map_cons]
  refine List.nodup_cons.mpr ⟨?_, ?_⟩
  · simp only [List.mem_map]
    rintro ⟨r, hrmem, hrid⟩
    have hp := List.of_mem_filter hrmem
    simp only [Bool.and_eq_true, decide_eq_true_eq] at hp
    exact hp.2 hrid
  · exact List.Nodup.sublist (List.Sublist.map _ (List.filter_sublist _)) h

/-- `recordRunUpdate` preserves distinctness of `runId`s: a merge leaves
ids untouched, and the self-healing insert only fires when the id was
absent. -/
theorem recordRunUpdate_nodup (runs : List RunRecord) (rid : String) (p : RunPatch)
    (now : Nat) (h : (runs.map RunRecord.runId).Nodup) :
    ((recordRunUpdate runs rid p now).map RunRecord.runId).Nodup := by
  unfold recordRunUpdate
  split
  case isTrue hf =>
    have e : (runs.map (fun r => if r.runId = rid then mergePatch r p now else r)).map
        RunRecord.runId = runs.map RunRecord.runId := by
      rw [List.map_map]
      apply List.map_congr_left
      intro r _
      by_cases hr : r.runId = rid
      · simp [hr, mergePatch]
      · simp [hr]
    rw [e]
    exact h
  case isFalse hf =>
    have hno : ∀ r ∈ runs, ¬ (r.runId = rid) := by
      intro r hr e
      exact hf (List.any_eq_true.mpr ⟨r, hr, by simp [e]⟩)
    have hmap : runs.map (fun r => if r.runId = rid then mergePatch r p now else r) = runs := by
      have e2 : ∀ r ∈ runs, (if r.runId = rid then mergePatch r p now else r) = id r := by
        intro r hr
        simp [hno r hr]
      rw [List.map_congr_left e2, List.map_id]
    rw [hmap]
    refine List.Nodup.sublist (List.Sublist.map _ (List.take_sublist _ _)) ?_
    rw [List.map_cons]
    refine List.nodup_cons.mpr ⟨?_, h⟩
    simp only [List.mem_map]
    rintro ⟨r, hrmem, hrid⟩
    exact hno r hrmem hrid

/-- One store operation never grows a store beyond 50 records. -/
theorem applyRunOp_length (runs : List RunRecord) (op : RunOp) (h : runs.length ≤ 50) :
    (applyRunOp runs op).length ≤ 50 := by
  cases op with
  | start rid su me sa now =>
    simp only [applyRunOp, recordRunStart]
    simp [List.length_take]
  | update rid p now =>
    simp only [applyRunOp, recordRunUpdate]
    split
    · simpa using h
    · simp [List.length_take]

/-- Every value has positive size. -/
theorem vsize_pos (v : Val) : 1 ≤ vsize v := by
  cases v <;> simp [vsize]

/-- A property that probes as a string determines the option's shape. -/
theorem strFieldText_some (o : ValOpt) (s : String) (h : strFieldText o = some s) :
    o = .osome (.vstr s) := by
  cases o with
  | onone => simp [strFieldText] at h
  | osome v =>
    cases v with
    | vstr s2 =>
      simp only [strFieldText, Option.some.injEq] at h
      rw [h]
    | vnull => simp [strFieldText] at h
    | vbool b => simp [strFieldText] at h
    | vnum n => simp [strFieldText] at h
    | varr es => simp [strFieldText] at h
    | vobj t m c => simp [strFieldText] at h

/-- Size-indexed induction: when no non-empty string is reachable along the
recognized paths, every extraction function returns its empty result. -/
theorem extract_empty_aux : ∀ n : Nat,
    (∀ v, vsize v ≤ n → hasText v = false → extractText v = "") ∧
    (∀ v, vsize v ≤ n → hasPart v = false → extractPart v = "") ∧
    (∀ es, lsize es ≤ n → hasParts es = false →
      (extractParts es).filter (fun s => s ≠ "") = []) ∧
    (∀ o, osize o ≤ n → contentHas o = false → contentText o = "") := by
  intro n
  induction n with
  | zero =>
    refine ⟨?_, ?_, ?_, ?_⟩
    · intro v hv
      exact absurd hv (by have := vsize_pos v; omega)
    · intro v hv
      exact absurd hv (by have := vsize_pos v; omega)
    · intro es hes _
      cases es with
      | nil => rfl
      | cons v vs => exact absurd hes (by simp [lsize])
    · intro o ho _
      cases o with
      | onone => rfl
      | osome v => exact absurd ho (by simp [osize])
  | succ n ih =>
    obtain ⟨ihv, ihp, ihl, iho⟩ := ih
    have hobj : ∀ t m c, vsize (.vobj t m c) ≤ n + 1 →
        strFieldHas t = false → contentHas c = false →
        (match strFieldText t with
          | some s => s
          | none => contentText c) = "" := by
      intro t m c hv ht hc
      rcases hst : strFieldText t with _ | s1
      · simp only
        refine iho c ?_ hc
        simp [vsize] at hv
        omega
      · simp only
        have he := strFieldText_some t s1 hst
        subst he
        simp only [strFieldHas, decide_eq_false_iff_not, not_not] at ht
        exact ht
    refine ⟨?_, ?_, ?_, ?_⟩
    · intro v hv hh
      cases v with
      | vnull => rfl
      | vbool b => rfl
      | vnum k => rfl
      | vstr s =>
        simp only [hasText, decide_eq_false_iff_not, not_not] at hh
        simp [extractText, hh]
      | varr es =>
        simp only [hasText] at hh
        have hsz : lsize es ≤ n := by simp [vsize] at hv; omega
        simp only [extractText]
        rw [ihl es hsz hh]
        rfl
      | vobj t m c =>
        simp only [hasText, Bool.or_eq_false_iff] at hh
        obtain ⟨⟨ht, hm⟩, hc⟩ := hh
        simp only [extractText]
        rcases hst : strFieldText t with _ | s1
        · simp only
          rcases hsm : strFieldText m with _ | s2
          · simp only
            refine iho c ?_ hc
            simp [vsize] at hv
            omega
          · simp only
            have he := strFieldText_some m s2 hsm
            subst he
            simp only [strFieldHas, decide_eq_false_iff_not, not_not] at hm
            exact hm
        · simp only
          have he := strFieldText_some t s1 hst
          subst he
          simp only [strFieldHas, decide_eq_false_iff_not, not_not] at ht
          exact ht
    · intro v hv hh
      cases v with
      | vnull => rfl
      | vbool b => rfl
      | vnum k => rfl
      | varr es => rfl
      | vstr s =>
        simp only [hasPart, decide_eq_false_iff_not, not_not] at hh
        simp [extractPart, hh]
      | vobj t m c =>
        simp only [hasPart, Bool.or_eq_false_iff] at hh
        obtain ⟨ht, hc⟩ := hh
        simpa only [extractPart] using hobj t m c hv ht hc
    · intro es hes hh
      cases es with
      | nil => rfl
      | cons v vs =>
        simp only [hasParts, Bool.or_eq_false_iff] at hh
        obtain ⟨h1, h2⟩ := hh
        have hsz1 : vsize v ≤ n := by simp [lsize] at hes; omega
        have hsz2 : lsize vs ≤ n := by simp [lsize] at hes; omega
        show (extractPart v :: extractParts vs).filter (fun s => s ≠ "") = []
        rw [ihp v hsz1 h1]
        simpa using ihl vs hsz2 h2
    · intro o ho hh
      cases o with
      | onone => rfl
      | osome v =>
        cases v with
        | vnull => rfl
        | vbool b => rfl
        | vnum k => rfl
        | vobj t m c => rfl
        | vstr s =>
          simp only [contentHas, decide_eq_false_iff_not, not_not] at hh
          simp [contentText, hh]
        | varr es =>
          simp only [contentHas] at hh
          have hsz : lsize es ≤ n := by simp [osize, vsize] at ho; omega
          simp only [contentText]
          rw [ihl es hsz hh]
          rfl

/-- Every path of the status-query branch leaves `agentStart` empty: the
branch only ever polls `agent.wait`, it never issues an `agent` start. -/
theorem statusBranch_agentStart (env : Env) (msg : String) :
    (statusBranch env msg).2.agentStart = none := by
  simp only [statusBranch]
  split
  · rfl
  · split
    · rfl
    · rfl

/-- A "Working" notification text is never equal to a "Done" notification
text (their second characters differ). -/
theorem mkWorking_ne_mkDone (rt s rt2 s2 b2 : String) :
    mkWorkingMsg rt s ≠ mkDoneMsg rt2 s2 b2 := by
  intro h
  have h2 : ((mkWorkingMsg rt s).data)[1]? = ((mkDoneMsg rt2 s2 b2).data)[1]? := by rw [h]
  have e1 : ((mkWorkingMsg rt s).data)[1]? = some '³' := rfl
  have e2 : ((mkDoneMsg rt2 s2 b2).data)[1]? = some 'œ' := rfl
  rw [e1, e2] at h2
  simp at h2

/-! ## Concrete demonstration inputs shared by the claim witnesses -/

/-- A dispatch-style args object with a configurable `timeoutMs`. -/
def demoArgs (t : Option Nat) : Args :=
  { message := some "turn on the lights", instruction := none, text := none,
    deliver := none, thinking := none, timeoutMs := t }

/-- A handler environment: off-call, empty store, backend resolving `ok`
quickly. -/
def demoEnv : Env :=
  { secret := "s3cret", retellAgentId := none, statusNotifyMaxChars := 3500,
    call := { callOngoing := false, activeCallId := "", lastCallStartedAtMs := 0 },
    runs := [], now := 1000, agentAckRunId := some "run-1", idempotencyKey := "k1",
    waitStatus := some "ok", elapsedAtWaitMs := 400, elapsedMs := 500,
    lastText := "Lights are on.", polledStatus := none }

/-- A stored run record with the given id. -/
def demoRunRecord (rid : String) : RunRecord :=
  { runId := rid, summary := some "s", message := some "m", startedAtMs := some 1,
    updatedAtMs := 1, completedAtMs := none, status := some "running" }

/-- Notification configuration with no static override. -/
def cfgC3 : NotifyConfig :=
  { enabled := true, channel := "telegram", toOverride := "", accountIdOverride := none }

/-- A `/retell/sync` body carrying a status query. -/
def demoStatusView : SyncView :=
  { args := none,
    fields := { message := some "check status", instruction := none, text := none,
                deliver := none, thinking := none, timeoutMs := none } }

/-- A POST request whose token does not match the shared secret. -/
def reqC9 : Request :=
  { method := "POST", path := "/retell/sync", headerToken := some "wrong",
    queryToken := none, body := none }

/-- A value with no non-empty string under the recognized paths. -/
def demoVal : Val :=
  .vobj (.osome (.vnum 3)) .onone
    (.osome (.varr (.cons .vnull (.cons (.vstr "") .nil))))

/-! ## The claims -/

/-- Claim C1, counterexample: a requested `timeoutMs` of `0` does not
produce a primary-wait budget of 1000ms on `/retell/sync` — `0` is falsy in
`Number(args.timeoutMs || 12_000)`, so the 12000 default applies before the
clamp. -/
theorem claim_C1_counterexample :
    (syncBranch demoEnv { args := none, fields := demoArgs (some 0) }).2.dispatchWaitBudgetMs ≠
      some 1000 := by decide

/-- Claim C1, amended: for POST `/retell/sync`, requested `timeoutMs` values
of 0, 100000 and 5000 produce effective primary-wait budgets (the value
passed to the `agent.wait` race before the 250ms grace pad) of 12000, 25000
and 5000 milliseconds respectively — a requested 0 is falsy, so the 12000
default applies before the `min(25000, max(1000, ·))` clamp. -/
theorem claim_C1_amended :
    (syncBranch demoEnv { args := none, fields := demoArgs (some 0) }).2.dispatchWaitBudgetMs =
      some (effectiveTimeoutMs (some 0)) ∧
    effectiveTimeoutMs (some 0) = 12000 ∧
    (syncBranch demoEnv
      { args := none, fields := demoArgs (some 100000) }).2.dispatchWaitBudgetMs =
      some 25000 ∧
    (syncBranch demoEnv
      { args := none, fields := demoArgs (some 5000) }).2.dispatchWaitBudgetMs =
      some 5000 := by decide

/-- Claim C2, counterexample: concatenating the chunks of `chunkText` does
not reconstruct the trimmed input — `chunkText "a b" 2 = ["a", "b"]`, and
the space at the cut point is dropped by the `trimEnd`/`trimStart` pair. -/
theorem claim_C2_counterexample :
    String.join (chunkText "a b" 2) ≠ trimS "a b" := by decide

/-- Claim C2, amended: for every string `s` and every `max ≥ 1`, every
chunk returned by `chunkText s max` has length at most `max`, and the
concatenation of all chunks is a subsequence of the trimmed input (equality
fails in general because the whitespace at each cut point is trimmed
away). -/
theorem claim_C2_amended (s : String) (maxChars : Nat) (hmax : 1 ≤ maxChars) :
    (∀ c ∈ chunkText s maxChars, c.length ≤ maxChars) ∧
    List.Sublist (String.join (chunkText s maxChars)).data (trimS s).data := by
  constructor
  · intro c hc
    unfold chunkText at hc
    obtain ⟨l, hl, rfl⟩ := List.mem_map.mp hc
    exact chunkLoopF_length maxChars _ _ l hl
  · show List.Sublist
      (String.join ((chunkLoopF maxChars (trimL s.data).length (trimL s.data)).map
        String.mk)).data (trimL s.data)
    rw [join_map_mk]
    exact chunkLoopF_flatten_sublist maxChars _ _

/-- Witness for the amended claim C2 at the concrete input `"a b"`,
`max = 2`. -/
theorem claim_C2_witness :
    (∀ c ∈ chunkText "a b" 2, c.length ≤ 2) ∧
    List.Sublist (String.join (chunkText "a b" 2)).data (trimS "a b").data :=
  claim_C2_amended "a b" 2 (by decide)

/-- Claim C3, code evaluation at the failing input: a lookup at t=1000ms
finds no address, returns `null` and stores a null cache entry stamped at
1000; a second call at t=31000ms — 30 s later, within the 60 s TTL — issues
a `sessions.list` query again (`queried = true`), because the cache guard
`cachedNotifyTarget && now - cachedNotifyTargetAtMs < 60_000` requires a
truthy cached target, which a cached `null` never is. -/
theorem claim_C3_code_eval :
    resolveNotifyTarget cfgC3 { target := none, atMs := 0 } 1000 "" none =
      { target := none, cache := { target := none, atMs := 1000 }, queried := true } ∧
    (resolveNotifyTarget cfgC3 { target := none, atMs := 1000 } 31000 "" none).queried =
      true ∧
    31000 - 1000 < 60000 := by decide

/-- Claim C4: starting from any store whose records have pairwise-distinct
`runId`s, any sequence of `recordRunStart` and `recordRunUpdate` calls
leaves the `runId`s pairwise distinct, i.e. at most one record per `runId`
exists. -/
theorem claim_C4 (runs : List RunRecord) (ops : List RunOp)
    (h : (runs.map RunRecord.runId).Nodup) :
    ((applyRunOps runs ops).map RunRecord.runId).Nodup := by
  induction ops generalizing runs with
  | nil => exact h
  | cons op ops ih =>
    show ((applyRunOps (applyRunOp runs op) ops).map RunRecord.runId).Nodup
    apply ih
    cases op with
    | start rid su me sa now => exact recordRunStart_nodup runs rid su me sa now h
    | update rid p now => exact recordRunUpdate_nodup runs rid p now h

/-- Witness for claim C4 on a concrete store and operation sequence. -/
theorem claim_C4_witness :
    ((applyRunOps [demoRunRecord "a"]
      [.start "b" "s2" "m2" 0 5, .update "a" ⟨some "done", some 9⟩ 9]).map
        RunRecord.runId).Nodup :=
  claim_C4 [demoRunRecord "a"] [.start "b" "s2" "m2" 0 5, .update "a" ⟨some "done", some 9⟩ 9]
    (by decide)

/-- Claim C5: starting from an empty store, after any number of
`recordRunStart` and `recordRunUpdate` calls the store holds at most 50
records. -/
theorem claim_C5 (ops : List RunOp) : (applyRunOps [] ops).length ≤ 50 := by
  suffices h : ∀ runs : List RunRecord, runs.length ≤ 50 →
      (applyRunOps runs ops).length ≤ 50 by
    exact h [] (by simp)
  induction ops with
  | nil => intro runs h; simpa [applyRunOps] using h
  | cons op ops ih =>
    intro runs h
    exact ih (applyRunOp runs op) (applyRunOp_length runs op h)

/-- Claim C6: when a record with the given `runId` exists,
`recordRunUpdate` keeps the store's length and order, leaves every other
record unchanged, and on the matching record preserves every field the
patch does not carry while setting `updatedAtMs` to the current time and
overwriting the fields the patch does carry; when no record matches, it
prepends a minimal record built from the patch (truncating to 50). -/
theorem claim_C6 (runs : List RunRecord) (rid : String) (p : RunPatch) (now : Nat) :
    ((∃ r ∈ runs, r.runId = rid) →
      (recordRunUpdate runs rid p now).length = runs.length ∧
      ∀ i, i < runs.length →
        ∀ r, runs[i]? = some r →
          (r.runId ≠ rid → (recordRunUpdate runs rid p now)[i]? = some r) ∧
          (r.runId = rid →
            ∃ r2, (recordRunUpdate runs rid p now)[i]? = some r2 ∧
              r2.runId = r.runId ∧ r2.summary = r.summary ∧ r2.message = r.message ∧
              r2.startedAtMs = r.startedAtMs ∧ r2.updatedAtMs = now ∧
              (p.status = none → r2.status = r.status) ∧
              (∀ s, p.status = some s → r2.status = some s) ∧
              (p.completedAtMs = none → r2.completedAtMs = r.completedAtMs) ∧
              (∀ t, p.completedAtMs = some t → r2.completedAtMs = some t))) ∧
    ((¬ ∃ r ∈ runs, r.runId = rid) →
      ∃ fresh, recordRunUpdate runs rid p now = fresh :: runs.take 49 ∧
        fresh.runId = rid ∧ fresh.updatedAtMs = now ∧ fresh.status = p.status ∧
        fresh.completedAtMs = p.completedAtMs ∧ fresh.summary = none ∧
        fresh.message = none ∧ fresh.startedAtMs = none) := by
  constructor
  · rintro ⟨r0, hr0, hid0⟩
    have hf : runs.any (fun r => decide (r.runId = rid)) = true :=
      List.any_eq_true.mpr ⟨r0, hr0, by simp [hid0]⟩
    have e : recordRunUpdate runs rid p now =
        runs.map (fun r => if r.runId = rid then mergePatch r p now else r) := by
      unfold recordRunUpdate
      simp only [hf, if_true]
    rw [e]
    refine ⟨List.length_map _ _, ?_⟩
    intro i hi r hr
    rw [List.getElem?_map, hr]
    constructor
    · intro hne
      simp [hne]
    · intro heq
      refine ⟨mergePatch r p now, by simp [heq], rfl, rfl, rfl, rfl, rfl, ?_, ?_, ?_, ?_⟩
      · intro hs; simp [mergePatch, hs]
      · intro s hs; simp [mergePatch, hs]
      · intro hc; simp [mergePatch, hc]
      · intro t hc; simp [mergePatch, hc]
  · intro hnone
    have hf : runs.any (fun r => decide (r.runId = rid)) = false := by
      rw [List.any_eq_false]
      intro r hr
      simp only [decide_eq_true_eq]
      exact fun e => hnone ⟨r, hr, e⟩
    have hmap : runs.map (fun r => if r.runId = rid then mergePatch r p now else r) = runs := by
      have e2 : ∀ r ∈ runs, (if r.runId = rid then mergePatch r p now else r) = id r := by
        intro r hr
        have hne : ¬ (r.runId = rid) := fun e => hnone ⟨r, hr, e⟩
        simp [hne]
      rw [List.map_congr_left e2, List.map_id]
    refine ⟨{ runId := rid, summary := none, message := none, startedAtMs := none,
              updatedAtMs := now, completedAtMs := p.completedAtMs, status := p.status },
      ?_, rfl, rfl, rfl, rfl, rfl, rfl, rfl⟩
    unfold recordRunUpdate
    simp only [hf, Bool.false_eq_true, if_false, hmap]
    rfl

/-- Witness for claim C6 at a concrete store containing the patched id. -/
theorem claim_C6_witness :
    (recordRunUpdate [demoRunRecord "a"] "a" ⟨some "done", none⟩ 7).length =
      ([demoRunRecord "a"] : List RunRecord).length :=
  ((claim_C6 [demoRunRecord "a"] "a" ⟨some "done", none⟩ 7).1
    ⟨demoRunRecord "a", by simp, rfl⟩).1

/-- Claim C7: when the inbound `/retell/sync` message matches the
status-query heuristic, no `agent` start request is issued, and when the
run store is empty the response is HTTP 200 with status `no_jobs` and text
`No active jobs to report.`. -/
theorem claim_C7 (env : Env) (v : SyncView) (msg : String)
    (hm : messageOf v = some msg) (hq : isStatusQuery msg = true) :
    (syncBranch env v).2.agentStart = none ∧
    (env.runs = [] →
      (syncBranch env v).1.httpStatus = 200 ∧
      (syncBranch env v).1.status = some "no_jobs" ∧
      (syncBranch env v).1.text = some "No active jobs to report.") := by
  have hs : syncBranch env v = statusBranch env msg := by
    unfold syncBranch
    rw [hm]
    simp [hq]
  rw [hs]
  refine ⟨statusBranch_agentStart env msg, fun hr => ?_⟩
  simp only [statusBranch]
  rw [hr]
  simp [noJobsResponse]

/-- Witness for claim C7: a `check status` request against an empty
store. -/
theorem claim_C7_witness :
    (syncBranch demoEnv demoStatusView).2.agentStart = none ∧
    (syncBranch demoEnv demoStatusView).1.status = some "no_jobs" ∧
    (syncBranch demoEnv demoStatusView).1.text = some "No active jobs to report." :=
  ⟨(claim_C7 demoEnv demoStatusView "check status" (by decide) (by decide)).1,
   ((claim_C7 demoEnv demoStatusView "check status" (by decide) (by decide)).2 rfl).2.1,
   ((claim_C7 demoEnv demoStatusView "check status" (by decide) (by decide)).2 rfl).2.2⟩

/-- Claim C8: when no call is ongoing and the primary wait resolves `ok`
with total elapsed time under 1.2 s (so the delayed working timer never
fired), the dispatch path sends exactly one notification — the "Done"
message — and zero "Working" notifications. -/
theorem claim_C8 (env : Env) (args : Args) (msg : String)
    (hcall : env.call.callOngoing = false)
    (hok : env.waitStatus = some "ok")
    (hle : env.elapsedAtWaitMs ≤ env.elapsedMs)
    (hfast : env.elapsedMs < 1200) :
    (dispatchBranch env args msg).2.notifications =
      [mkDoneMsg (mkRunTag (jsOrStr (env.agentAckRunId.getD "") env.idempotencyKey))
        (summarizeInstruction msg)
        (if env.lastText = "" then "" else "\n" ++ env.lastText)] ∧
    mkWorkingMsg (mkRunTag (jsOrStr (env.agentAckRunId.getD "") env.idempotencyKey))
      (summarizeInstruction msg) ∉ (dispatchBranch env args msg).2.notifications := by
  have hwait : ¬ (1200 ≤ env.elapsedAtWaitMs) := by omega
  have h1 : (dispatchBranch env args msg).2.notifications =
      [mkDoneMsg (mkRunTag (jsOrStr (env.agentAckRunId.getD "") env.idempotencyKey))
        (summarizeInstruction msg)
        (if env.lastText = "" then "" else "\n" ++ env.lastText)] := by
    simp only [dispatchBranch, hcall, hok, hwait]
    simp [hwait, hfast]
  refine ⟨h1, ?_⟩
  rw [h1]
  intro hmem
  exact mkWorking_ne_mkDone _ _ _ _ _ (List.mem_singleton.mp hmem)

/-- Witness for claim C8 on the concrete fast-completion environment. -/
theorem claim_C8_witness :
    (dispatchBranch demoEnv (demoArgs none) "turn on the lights").2.notifications =
      [mkDoneMsg (mkRunTag (jsOrStr (demoEnv.agentAckRunId.getD "") demoEnv.idempotencyKey))
        (summarizeInstruction "turn on the lights")
        (if demoEnv.lastText = "" then "" else "\n" ++ demoEnv.lastText)] ∧
    mkWorkingMsg (mkRunTag (jsOrStr (demoEnv.agentAckRunId.getD "") demoEnv.idempotencyKey))
      (summarizeInstruction "turn on the lights") ∉
      (dispatchBranch demoEnv (demoArgs none) "turn on the lights").2.notifications :=
  claim_C8 demoEnv (demoArgs none) "turn on the lights" rfl rfl (by decide) (by decide)

/-- Claim C9: any POST request whose resolved token (header
`x-retell-token`, else query parameter `token`) differs from the shared
secret is answered 401 `{ok:false, error:"unauthorized"}` with no side
effects: no agent start, no notification, no state write, no memory
append, and the store and call flags unchanged (all bundled in
`noEffects`). -/
theorem claim_C9 (env : Env) (req : Request) (hm : req.method = "POST")
    (ht : jsOrOptStr req.headerToken req.queryToken ≠ some env.secret) :
    (handleRequest env req).1.httpStatus = 401 ∧
    (handleRequest env req).1.ok = false ∧
    (handleRequest env req).1.error = some "unauthorized" ∧
    (handleRequest env req).2 = noEffects env := by
  have he : handleRequest env req =
      ({ httpStatus := 401, ok := false, error := some "unauthorized" }, noEffects env) := by
    unfold handleRequest
    rw [hm]
    simp [ht]
  rw [he]
  exact ⟨rfl, rfl, rfl, rfl⟩

/-- Witness for claim C9 at a concrete wrong-token request. -/
theorem claim_C9_witness :
    (handleRequest demoEnv reqC9).1.httpStatus = 401 ∧
    (handleRequest demoEnv reqC9).1.ok = false ∧
    (handleRequest demoEnv reqC9).1.error = some "unauthorized" ∧
    (handleRequest demoEnv reqC9).2 = noEffects demoEnv :=
  claim_C9 demoEnv reqC9 rfl (by decide)

/-- Claim C10: `extractText` is total by construction (a structural
recursion defined on every value shape), and it returns the empty string
whenever no non-empty string is reachable under the recognized field paths
(`text`, `message`, `content`, recursing through `content` arrays). -/
theorem claim_C10 (v : Val) (h : hasText v = false) : extractText v = "" :=
  (extract_empty_aux (vsize v)).1 v le_rfl h

/-- Witness for claim C10 on a concrete string-free value. -/
theorem claim_C10_witness : hasText demoVal = false ∧ extractText demoVal = "" :=
  ⟨by decide, claim_C10 demoVal (by decide)⟩

/-! ## Concrete evaluations of the embedded functions -/

example : chunkText "a b" 2 = ["a", "b"] := by decide

example : chunkText "hello" 10 = ["hello"] := by decide

example : chunkText "   " 10 = [] := by decide

example : chunkText "aaaa\n\nbbbb" 7 = ["aaaa", "bbbb"] := by decide

example : chunkText "abcdef" 2 = ["ab", "cd", "ef"] := by decide

example : extractText (.vstr "hi") = "hi" := by decide

example :
    extractText (.varr (.cons (.vstr "a") (.cons .vnull
      (.cons (.vobj (.osome (.vstr "b")) .onone .onone) .nil)))) = "ab" := by
  decide

example : extractText (.vobj .onone (.osome (.vstr "m")) (.osome (.vstr "c"))) = "m" := by decide

example :
    extractText (.vobj .onone .onone
      (.osome (.varr (.cons (.vnum 3) (.cons (.vstr "x") .nil))))) = "x" := by
  decide

example :
    extractText (.vobj (.osome (.vnum 3)) .onone
      (.osome (.varr (.cons .vnull (.cons (.vstr "") .nil))))) = "" := by
  decide

example :
    hasText (.vobj (.osome (.vnum 3)) .onone
      (.osome (.varr (.cons .vnull (.cons (.vstr "") .nil))))) = false := by
  decide

example : extractRunIdFromText "run #a1b2c3d4 started" = "a1b2c3d4" := by decide

example : extractRunIdFromText "no id here" = "" := by decide

example :
    extractRunIdFromText "id 0a1b2c3d-0000-4111-8222-333344445555 ok" =
      "0a1b2c3d-0000-4111-8222-333344445555" := by decide

example : normalizePath "/retell/sync//" = "/retell/sync" := by decide

example : normalizePath "///" = "/" := by decide

example : effectiveTimeoutMs (some 0) = 12000 := by decide

example : effectiveTimeoutMs (some 100000) = 25000 := by decide

example : effectiveTimeoutMs (some 5000) = 5000 := by decide

example : effectiveTimeoutMs none = 12000 := by decide

example : isStatusQuery "check status" = true := by decide

example : isStatusQuery "Status" = true := by decide

example : isStatusQuery "job status please" = true := by decide

example : isStatusQuery "are you done?" = true := by decide

example : isStatusQuery "please update the doc" = false := by decide

example : oneLine " a \n\n b\tc " = "a b c" := by decide

example : summarizeInstruction "Update system instructions: do x" = "do x" := by decide

example : shortRun "0123456789ab" = "01234567" := by decide
